import Mathlib

/-!
Verification development for the event-aggregator-api repository.

The repository consists of several near-duplicate snapshots of one Express
application. The main snapshot is src/server.js; two further snapshots are
src/unnamed/part_000 and src/unnamed/part_001. Pure computations are embedded
directly; network fetches, the clock and the date-parsing behaviour of the
JavaScript Date constructor are injected as explicit parameters:

- a fetch is represented by its outcome, an Except value holding either the
  parsed feed or the thrown error message;
- the current instant is passed in, both as epoch milliseconds (now) and as
  the ISO string produced by new Date().toISOString() (nowISO);
- the numeric value that new Date(s).getTime() assigns to a stored date
  string, used only by the sort comparators, is injected as a valuation
  dv : String -> Int.

JavaScript string falsiness (undefined and the empty string) is modelled on
Option String by the js-prefixed helpers below. Array.prototype.sort with a
comparator c is Node.js stable sort; a comparator of the shape
c a b = dv b - dv a is embedded as List.mergeSort with the boolean relation
le a b = decide (dv b <= dv a), which agrees with the unique stable sort
determined by c.
-/

/-- Truthiness of a JavaScript string value: the empty string is falsy. -/
def jsTruthy (s : String) : Bool := s != ""

/-- Models the JavaScript expression a OR b (written with two vertical bars)
over two possibly-undefined string values: a is kept unless it is undefined
or the empty string. -/
def jsOrO (a b : Option String) : Option String :=
  match a with
  | some s => if s == "" then b else some s
  | none => b

/-- Models the JavaScript expression a OR d where the right operand d is a
definitely-defined string, as in the null-coalescing chains of the source. -/
def jsOrD (a : Option String) (d : String) : String :=
  match a with
  | some s => if s == "" then d else s
  | none => d

/-- Falsiness of a possibly-undefined JavaScript string value. -/
def jsFalsyO (a : Option String) : Bool :=
  match a with
  | some s => s == ""
  | none => true

/-- Boolean test that the first character list starts with the second. -/
def charsStartWith : List Char → List Char → Bool
  | _, [] => true
  | [], _ :: _ => false
  | a :: as, b :: bs => a == b && charsStartWith as bs

/-- Boolean test that the second character list occurs contiguously inside
the first. -/
def charsInclude (text pat : List Char) : Bool :=
  match text with
  | [] => pat.isEmpty
  | _ :: rest => charsStartWith text pat || charsInclude rest pat

/-- Models the JavaScript test s.includes(pat) for strings. -/
def strIncludes (s pat : String) : Bool := charsInclude s.toList pat.toList

/-- Models the JavaScript toLowerCase call character by character. The ASCII
case map agrees with the JavaScript one on the ASCII and Japanese text this
program handles. -/
def jsToLower (s : String) : String := String.mk (s.toList.map Char.toLower)

/-- Models the JavaScript trim call: leading and trailing whitespace
characters are removed. -/
def jsTrim (s : String) : String :=
  String.mk (((s.toList.dropWhile Char.isWhitespace).reverse.dropWhile
    Char.isWhitespace).reverse)

/-- Event keyword list of src/server.js (identical in part_001). -/
def eventKeywords : List String :=
  ["イベント", "event", "開催", "展示", "展覧会", "エキシビション", "exhibition",
   "フェス", "festival", "ライブ", "live", "コンサート", "concert",
   "ワークショップ", "workshop", "セミナー", "seminar", "体験", "experience",
   "限定", "期間限定", "ポップアップ", "popup", "pop-up", "キャンペーン", "campaign",
   "発売", "release", "オープン", "open", "グランドオープン", "grand opening",
   "コラボ", "collaboration", "特別", "special", "フェア", "fair"]

/-- Models isEventRelated of src/server.js. The argument is an Option so the
undefined case of the JavaScript falsiness guard is representable; lowercasing
uses the ASCII case map, which agrees with the JavaScript toLowerCase on the
ASCII and Japanese text handled by this program. -/
def isEventRelated (text : Option String) : Bool :=
  match text with
  | none => false
  | some t =>
    if t == "" then false
    else
      let lowerText := jsToLower t
      eventKeywords.any fun keyword => strIncludes lowerText (jsToLower keyword)

/-- Shape of one parsed feed item as consumed by src/server.js and part_001:
every field may be missing from the underlying feed. -/
structure RSSItem where
  title : Option String
  link : Option String
  pubDate : Option String
  isoDate : Option String
  contentSnippet : Option String
  description : Option String
deriving DecidableEq, Repr

/-- Parsed feed: the items array returned by the rss-parser library. -/
structure Feed where
  items : List RSSItem
deriving DecidableEq, Repr

/-- Normalized record produced by the adapters of src/server.js and
part_001. -/
structure EventRecord where
  title : String
  link : String
  pubDate : String
  source : String
  description : String
  isEvent : Bool
deriving DecidableEq, Repr

/-- Mapping of one feed item into an EventRecord, as written inline in
fetchRSSFeed and fetchPRTimesCompanies of src/server.js (identical in
part_001). nowISO is the value of new Date().toISOString() at fetch time. -/
def mapRSSItem (sourceName nowISO : String) (item : RSSItem) : EventRecord :=
  { title := jsOrD item.title ""
    link := jsOrD item.link ""
    pubDate := jsOrD (jsOrO item.pubDate item.isoDate) nowISO
    source := sourceName
    description := jsOrD (jsOrO item.contentSnippet item.description) ""
    isEvent := isEventRelated item.title ||
      isEventRelated (jsOrO item.contentSnippet item.description) }

/-- Models fetchRSSFeed of src/server.js: the fetch-and-parse outcome is
passed in; a thrown error is logged and degraded to the empty list. -/
def fetchRSSFeed (fetchResult : Except String Feed) (sourceName nowISO : String) :
    List EventRecord :=
  match fetchResult with
  | Except.ok feed => feed.items.map (mapRSSItem sourceName nowISO)
  | Except.error _ => []

/-- Model of one node-cache slot for a single key: the stored value together
with its expiry instant in epoch milliseconds, or none when never set. -/
abbrev CacheState (α : Type) := Option (α × Int)

/-- Models a node-cache get at instant now: an entry whose expiry instant is
strictly in the past behaves as a miss. -/
def cacheGet {α : Type} (now : Int) (st : CacheState α) : Option α :=
  match st with
  | some (v, e) => if e < now then none else some v
  | none => none

/-- Models a node-cache set with the ttl (in milliseconds) fixed at cache
construction: the previous entry is replaced wholesale. -/
def cacheSet {α : Type} (ttlMs now : Int) (v : α) (_st : CacheState α) : CacheState α :=
  some (v, now + ttlMs)

/-- Cache ttl of src/server.js: stdTTL 1800 seconds, in milliseconds. -/
def cacheTTLms : Int := 1800 * 1000

/-- Sort relation of the comparator (a, b) => new Date(b.pubDate) - new Date(a.pubDate)
used by src/server.js, with the date valuation dv injected: a may stay before
b exactly when the comparator is nonpositive. -/
def byDateDesc (dv : String → Int) (a b : EventRecord) : Bool :=
  decide (dv b.pubDate ≤ dv a.pubDate)

/-- Models getAllEvents of src/server.js. The per-adapter fetch results (each
already degraded to a list, empty on failure) are passed in concatenation
order of the source array literal. Returns the served list, the new cache
state for the all_events key, and the number of adapter invocations
performed. -/
def getAllEvents (dv : String → Int) (now : Int) (fetches : List (List EventRecord))
    (st : CacheState (List EventRecord)) :
    List EventRecord × CacheState (List EventRecord) × Nat :=
  match cacheGet now st with
  | some cachedData => (cachedData, st, 0)
  | none =>
    let allEvents := fetches.foldr (fun a b => a ++ b) []
    let sorted := allEvents.mergeSort (byDateDesc dv)
    (sorted, cacheSet cacheTTLms now sorted st, fetches.length)

/-- Company id list of fetchPRTimesCompanies in src/server.js. -/
def companyIds : List Nat := [169497, 130855, 34897, 32114, 3710, 12471, 7414, 130313]

/-- Models fetchPRTimesCompanies of src/server.js: one fetch per company id,
a per-id failure is logged and skipped, successful results are concatenated
in id order. The source label is the fixed string PRTIMES. The id list is a
parameter so that the loop body, which is the unit of behaviour, can be
examined on any id list; the function in the source runs it on companyIds. -/
def fetchPRTimesCompanies (fetch : Nat → Except String Feed) (nowISO : String) :
    List Nat → List EventRecord
  | [] => []
  | id :: rest =>
    (match fetch id with
     | Except.ok feed => feed.items.map (mapRSSItem "PRTIMES" nowISO)
     | Except.error _ => []) ++ fetchPRTimesCompanies fetch nowISO rest

/-- Takes exactly n ASCII digits from the front of a character list,
returning the digits and the remainder. -/
def takeDigits : Nat → List Char → Option (List Char × List Char)
  | 0, cs => some ([], cs)
  | _ + 1, [] => none
  | n + 1, c :: cs =>
    if c.isDigit then
      match takeDigits n cs with
      | some (ds, rest) => some (c :: ds, rest)
      | none => none
    else none

/-- Matches the month part of the date regular expression of src/server.js,
one or two digits followed by a literal dot, with the greedy two-digit
attempt tried first as the regex engine does. -/
def matchMonthDot (cs : List Char) : Option (List Char × List Char) :=
  match takeDigits 2 cs with
  | some (ds, '.' :: rest) => some (ds, rest)
  | _ =>
    match takeDigits 1 cs with
    | some (ds, '.' :: rest) => some (ds, rest)
    | _ => none

/-- Matches the trailing day part, one or two digits, greedily. -/
def matchDay (cs : List Char) : Option (List Char × List Char) :=
  match takeDigits 2 cs with
  | some r => some r
  | none => takeDigits 1 cs

/-- Attempts the date regular expression of src/server.js, four digits, dot,
one or two digits, dot, one or two digits, at the head of the character
list; on success returns the full matched text and the three groups. -/
def matchDateAt (cs : List Char) : Option (String × String × String × String) :=
  match takeDigits 4 cs with
  | some (ys, '.' :: rest1) =>
    match matchMonthDot rest1 with
    | some (ms, rest2) =>
      match matchDay rest2 with
      | some (ds, _) =>
        some (String.mk (ys ++ '.' :: ms ++ '.' :: ds),
          String.mk ys, String.mk ms, String.mk ds)
      | none => none
    | none => none
  | _ => none

/-- Leftmost match of the date regular expression over a character list. -/
def firstDateMatchAux : List Char → Option (String × String × String × String)
  | [] => none
  | c :: rest =>
    match matchDateAt (c :: rest) with
    | some r => some r
    | none => firstDateMatchAux rest

/-- Leftmost match of the date regular expression of src/server.js in a
string, as produced by the JavaScript match method without the global flag. -/
def firstDateMatch (s : String) : Option (String × String × String × String) :=
  firstDateMatchAux s.toList

/-- Leftmost match of the bracketed-category regular expression of
src/server.js, an opening square bracket, one or more characters other than a
closing square bracket, then a closing square bracket; returns the group. -/
def firstCategoryMatchAux : List Char → Option String
  | [] => none
  | c :: rest =>
    if c == '[' then
      let content := rest.takeWhile (fun ch => ch != ']')
      match rest.drop content.length with
      | ']' :: _ =>
        if content.isEmpty then firstCategoryMatchAux rest else some (String.mk content)
      | _ => firstCategoryMatchAux rest
    else firstCategoryMatchAux rest

/-- Leftmost bracketed-category match in a string. -/
def firstCategoryMatch (s : String) : Option String :=
  firstCategoryMatchAux s.toList

/-- Models the anchored test href.match of the pattern slash news slash
digits used by src/server.js: the path must be exactly /news/ followed by
one or more ASCII digits. -/
def hrefIsNewsId (href : String) : Bool :=
  charsStartWith href.toList "/news/".toList &&
    (let rest := href.toList.drop 6
     !rest.isEmpty && rest.all Char.isDigit)

/-- One hyperlink element of the fetched page as the scrape branch of
src/server.js reads it with cheerio: the href attribute, the visible text of
the link, and the full text of the parent element. -/
structure Anchor where
  href : Option String
  text : String
  parentText : String
deriving DecidableEq, Repr

/-- Intermediate news-link value collected by the direct-extraction branch
of fetchFCTokyoRSS in src/server.js. -/
structure NewsLink where
  title : String
  href : String
  dateText : String
  categoryText : String
deriving DecidableEq, Repr

/-- Collection step of the direct-extraction branch of fetchFCTokyoRSS in
src/server.js: keep a link whose href matches the /news/ id pattern and
whose trimmed text is longer than 10 characters, recovering the date text
and the bracketed category from the text of the parent element. The length
test counts characters, which agrees with the JavaScript UTF-16 length on
the basic-plane text this site serves. -/
def extractNewsLink (a : Anchor) : Option NewsLink :=
  match a.href with
  | none => none
  | some href =>
    let title := jsTrim a.text
    if hrefIsNewsId href && decide (10 < title.length) then
      let dateText :=
        match firstDateMatch a.parentText with
        | some (full, _, _, _) => full
        | none => ""
      let categoryText :=
        match firstCategoryMatch a.parentText with
        | some c => c
        | none => ""
      some { title := title, href := href, dateText := dateText, categoryText := categoryText }
    else none

/-- Pads a string on the left with the zero digit to length two, as the
JavaScript padStart call does on the regex groups. -/
def padStart2 (s : String) : String :=
  if s.length ≥ 2 then s else if s.length == 1 then "0" ++ s else "00"

/-- Models building new Date of a year-month-day string followed by
toISOString, for a valid calendar date: a date-only string is parsed as
midnight UTC, so the result is the padded date with a zero time part. -/
def mkISODate (y m d : String) : String :=
  y ++ "-" ++ padStart2 m ++ "-" ++ padStart2 d ++ "T00:00:00.000Z"

/-- Conversion of one collected news link into an item, as in the forEach of
the direct-extraction branch of fetchFCTokyoRSS in src/server.js: the date
defaults to fetch time when no date text was found, the title and the
description are the link text prefixed with the bracketed category when one
was found, and the relative href is resolved against the site origin. -/
def newsLinkToItem (nowISO : String) (n : NewsLink) : EventRecord :=
  let pubDate :=
    if n.dateText == "" then nowISO
    else
      match firstDateMatch n.dateText with
      | some (_, y, m, d) => mkISODate y m d
      | none => nowISO
  let fullTitle :=
    if n.categoryText == "" then n.title else "[" ++ n.categoryText ++ "] " ++ n.title
  { title := fullTitle
    link := "https://www.fctokyo.co.jp" ++ n.href
    pubDate := pubDate
    source := "FC東京"
    description := fullTitle
    isEvent := isEventRelated (some n.title) ||
      (n.categoryText != "" && strIncludes n.categoryText "イベント") }

/-- Models the direct link extraction branch of fetchFCTokyoRSS in
src/server.js, taken when no candidate structural selector matched: collect
matching links, keep the first 30, convert each to an item, then sort by
date descending and return at most 30. -/
def fcTokyoDirectItems (dv : String → Int) (nowISO : String) (anchors : List Anchor) :
    List EventRecord :=
  let newsLinks := anchors.filterMap extractNewsLink
  let items := (newsLinks.take 30).map (newsLinkToItem nowISO)
  (items.mergeSort (byDateDesc dv)).take 30

namespace P000

/-- Shape of one parsed feed item as consumed by src/unnamed/part_000, which
additionally reads the guid, the raw content, the content-encoded custom
field, and the enclosure and thumbnail urls. -/
structure Item where
  title : Option String
  link : Option String
  guid : Option String
  pubDate : Option String
  isoDate : Option String
  contentSnippet : Option String
  content : Option String
  contentEncoded : Option String
  enclosureUrl : Option String
  thumbnailUrl : Option String
deriving DecidableEq, Repr

/-- Parsed feed for the part_000 snapshot. -/
structure Feed where
  items : List Item
deriving DecidableEq, Repr

/-- Event keyword list of src/unnamed/part_000. -/
def eventKeywords : List String :=
  ["イベント", "キャンペーン", "開催", "発売", "リリース",
   "オープン", "開業", "展示", "セール", "フェス", "フェア",
   "ワークショップ", "体験", "限定", "新作", "登場"]

/-- Rendering of a possibly-undefined value inside a JavaScript template
literal: undefined renders as the literal text undefined. -/
def jsTemplate (o : Option String) : String :=
  match o with
  | some s => s
  | none => "undefined"

/-- Models isEventRelated of src/unnamed/part_000, which takes the whole
item and tests the lowercased concatenation of title and snippet against its
own keyword list. -/
def isEventRelated (item : Item) : Bool :=
  let text := jsToLower (jsTemplate item.title ++ " " ++ jsOrD item.contentSnippet "")
  eventKeywords.any fun keyword => strIncludes text keyword

/-- Normalized record produced by the adapters of src/unnamed/part_000. The
title, url and publish date are passed through unchanged from the item, so
each may be absent. -/
structure EventRecord where
  id : Option String
  title : Option String
  description : Option String
  url : Option String
  publishDate : Option String
  source : String
  category : String
  imageUrl : Option String
deriving DecidableEq, Repr

/-- Capture attempt for the src attribute at the head of a character list:
the literal text src= and a double quote, then one or more characters that
are neither a double quote nor a closing angle bracket, then the closing
double quote. -/
def srcCaptureAt (cs : List Char) : Option String :=
  if charsStartWith cs "src=\"".toList then
    let afterQ := cs.drop 5
    let capture := afterQ.takeWhile (fun ch => ch != '"' && ch != '>')
    match afterQ.drop capture.length with
    | '"' :: _ => if capture.isEmpty then none else some (String.mk capture)
    | _ => none
  else none

/-- Rightmost successful src capture inside the non-bracket run of an img
tag, mirroring the greedy backtracking of the regex of extractImageUrl. -/
def imgSrcInRunAux : List Char → Option String
  | [] => none
  | c :: rest =>
    match imgSrcInRunAux rest with
    | some u => some u
    | none => srcCaptureAt (c :: rest)

/-- Leftmost match of the img src regular expression of extractImageUrl in
src/unnamed/part_000: at each occurrence of the literal text of an opening
img tag, the following characters up to the first closing angle bracket are
searched for a src attribute that must start at least one character after
the tag name. -/
def findImgSrcAux : List Char → Option String
  | [] => none
  | c :: rest =>
    if charsStartWith (c :: rest) "<img".toList then
      let run := (rest.drop 3).takeWhile (fun ch => ch != '>')
      match run with
      | [] => findImgSrcAux rest
      | _ :: afterOne =>
        match imgSrcInRunAux afterOne with
        | some u => some u
        | none => findImgSrcAux rest
    else findImgSrcAux rest

/-- Leftmost img src capture in a string. -/
def findImgSrc (s : String) : Option String :=
  findImgSrcAux s.toList

/-- Models extractImageUrl of src/unnamed/part_000: the enclosure url, else
the thumbnail url, else the first img src found in the content, else null. -/
def extractImageUrl (item : Item) : Option String :=
  if !jsFalsyO item.enclosureUrl then item.enclosureUrl
  else if !jsFalsyO item.thumbnailUrl then item.thumbnailUrl
  else findImgSrc (jsOrD (jsOrO item.content item.contentEncoded) "")

/-- Mapping of one feed item into a part_000 EventRecord as written in
fetchGizmodoEvents: note that the publish date is the raw pubDate or isoDate
with no fetch-time default. -/
def mapGizmodoItem (item : Item) : EventRecord :=
  { id := jsOrO item.guid item.link
    title := item.title
    description := jsOrO item.contentSnippet item.content
    url := item.link
    publishDate := jsOrO item.pubDate item.isoDate
    source := "GIZMODO"
    category := "テック"
    imageUrl := extractImageUrl item }

/-- Models fetchGizmodoEvents of src/unnamed/part_000: on success the items
are filtered by the classifier, mapped, and capped at 20; a thrown error is
logged and degraded to the empty list. -/
def fetchGizmodoEvents (fetchResult : Except String Feed) : List EventRecord :=
  match fetchResult with
  | Except.ok feed => ((feed.items.filter isEventRelated).map mapGizmodoItem).take 20
  | Except.error _ => []

/-- Sort relation of the part_000 comparator on publish dates, with the date
valuation dv injected over possibly-absent date strings. -/
def byDateDesc (dv : Option String → Int) (a b : EventRecord) : Bool :=
  decide (dv b.publishDate ≤ dv a.publishDate)

/-- Cache ttl of src/unnamed/part_000: stdTTL 3600 seconds, in milliseconds. -/
def cacheTTLms : Int := 3600 * 1000

/-- Models the all-events route handler of src/unnamed/part_000 given the
two fetched adapter result lists: on a miss the concatenation is sorted by
publish date descending, truncated to 100, cached, and returned. -/
def allEventsHandler (dv : Option String → Int) (now : Int)
    (gizmodoEvents prtimesEvents : List EventRecord)
    (st : CacheState (List EventRecord)) :
    List EventRecord × CacheState (List EventRecord) :=
  match cacheGet now st with
  | some cached => (cached, st)
  | none =>
    let allEvents := ((gizmodoEvents ++ prtimesEvents).mergeSort (byDateDesc dv)).take 100
    (allEvents, cacheSet cacheTTLms now allEvents st)

end P000

namespace P001

/-- Source label attached per company id by fetchPRTimesCompanies of
src/unnamed/part_001. -/
def sourceLabel (id : Nat) : String := "PRTIMES (企業ID: " ++ toString id ++ ")"

/-- Models fetchPRTimesCompanies of src/unnamed/part_001: identical to the
server.js loop except that the source label carries the company id. The item
mapping is the shared mapRSSItem, written identically in both snapshots. -/
def fetchPRTimesCompanies (fetch : Nat → Except String Feed) (nowISO : String) :
    List Nat → List EventRecord
  | [] => []
  | id :: rest =>
    (match fetch id with
     | Except.ok feed => feed.items.map (mapRSSItem (sourceLabel id) nowISO)
     | Except.error _ => []) ++ fetchPRTimesCompanies fetch nowISO rest

end P001

theorem byDateDesc_trans (dv : String → Int) (a b c : EventRecord)
    (hab : byDateDesc dv a b) (hbc : byDateDesc dv b c) : byDateDesc dv a c := by
  simp only [byDateDesc, decide_eq_true_eq] at hab hbc ⊢
  exact le_trans hbc hab

theorem byDateDesc_total (dv : String → Int) (a b : EventRecord) :
    byDateDesc dv a b || byDateDesc dv b a := by
  simp only [byDateDesc, Bool.or_eq_true, decide_eq_true_eq]
  exact le_total _ _

theorem mergeSort_filter_key (dv : String → Int) (l : List EventRecord) (k : Int) :
    (l.mergeSort (byDateDesc dv)).filter (fun r => dv r.pubDate == k)
      = l.filter (fun r => dv r.pubDate == k) := by
  have hsub : List.Sublist (l.filter (fun r => dv r.pubDate == k)) l := List.filter_sublist l
  have hpw : (l.filter (fun r => dv r.pubDate == k)).Pairwise
      (fun a b => byDateDesc dv a b = true) := by
    apply List.pairwise_of_forall_mem_list
    intro a ha b hb
    have ha2 := (List.mem_filter.mp ha).2
    have hb2 := (List.mem_filter.mp hb).2
    simp only [beq_iff_eq] at ha2 hb2
    simp only [byDateDesc, decide_eq_true_eq, ha2, hb2, le_refl]
  have hstable := List.sublist_mergeSort (byDateDesc_trans dv) (byDateDesc_total dv) hpw hsub
  have hself : (l.filter (fun r => dv r.pubDate == k)).filter (fun r => dv r.pubDate == k)
      = l.filter (fun r => dv r.pubDate == k) :=
    List.filter_eq_self.mpr (fun a ha => (List.mem_filter.mp ha).2)
  have h2 := hstable.filter (fun r => dv r.pubDate == k)
  rw [hself] at h2
  have hperm := (List.mergeSort_perm l (byDateDesc dv)).filter (fun r => dv r.pubDate == k)
  exact (h2.eq_of_length hperm.length_eq.symm).symm

theorem foldr_append_eq_nil {α : Type} :
    ∀ (xss : List (List α)), (∀ l ∈ xss, l = []) → xss.foldr (fun a b => a ++ b) [] = []
  | [], _ => rfl
  | l :: rest, h => by
    have hl : l = [] := h l (List.mem_cons_self l rest)
    have hr := foldr_append_eq_nil rest (fun x hx => h x (List.mem_cons_of_mem l hx))
    simp only [List.foldr_cons, hl, hr, List.nil_append]

/-- C1: for every dataset and orchestration cycle, the sequence returned by
getAllEvents on a cache miss is the merged concatenation of the adapter
results sorted by publish date in non-increasing order (with respect to the
date valuation of the comparator), it is a permutation of that concatenation,
and ties of equal publish-date value keep their input order: filtering the
output and the input concatenation by any fixed date value yields the same
list (stable sort). -/
theorem C1_getAllEvents_sorted_stable (dv : String → Int) (now : Int)
    (fetches : List (List EventRecord)) (st : CacheState (List EventRecord))
    (hmiss : cacheGet now st = none) :
    List.Pairwise (fun a b => dv b.pubDate ≤ dv a.pubDate) (getAllEvents dv now fetches st).1 ∧
    List.Perm (getAllEvents dv now fetches st).1 (fetches.foldr (fun a b => a ++ b) []) ∧
    ∀ k : Int, (getAllEvents dv now fetches st).1.filter (fun r => dv r.pubDate == k)
      = (fetches.foldr (fun a b => a ++ b) []).filter (fun r => dv r.pubDate == k) := by
  have hout : (getAllEvents dv now fetches st).1
      = (fetches.foldr (fun a b => a ++ b) []).mergeSort (byDateDesc dv) := by
    simp only [getAllEvents, hmiss]
  refine ⟨?_, ?_, ?_⟩
  · rw [hout]
    have hs := @List.sorted_mergeSort EventRecord (byDateDesc dv) (byDateDesc_trans dv)
      (byDateDesc_total dv) (fetches.foldr (fun a b => a ++ b) [])
    exact hs.imp (fun h => by simpa [byDateDesc] using h)
  · rw [hout]
    exact List.mergeSort_perm _ _
  · intro k
    rw [hout]
    exact mergeSort_filter_key dv _ k

/-- C1 witness: a concrete cycle with two adapters, evaluated at a length
valuation of the date strings. -/
theorem C1_witness :
    cacheGet 0 (none : CacheState (List EventRecord)) = none ∧
    (List.Pairwise (fun a b => (fun s => (s.length : Int)) b.pubDate ≤ (fun s => (s.length : Int)) a.pubDate)
      (getAllEvents (fun s => (s.length : Int)) 0
        [[{ title := "a", link := "", pubDate := "aa", source := "A", description := "", isEvent := false }],
         [{ title := "b", link := "", pubDate := "bbbb", source := "B", description := "", isEvent := true }]]
        none).1 ∧
    List.Perm
      (getAllEvents (fun s => (s.length : Int)) 0
        [[{ title := "a", link := "", pubDate := "aa", source := "A", description := "", isEvent := false }],
         [{ title := "b", link := "", pubDate := "bbbb", source := "B", description := "", isEvent := true }]]
        none).1
      ([[{ title := "a", link := "", pubDate := "aa", source := "A", description := "", isEvent := false }],
        [{ title := "b", link := "", pubDate := "bbbb", source := "B", description := "", isEvent := true }]].foldr
          (fun a b => a ++ b) []) ∧
    ∀ k : Int,
      (getAllEvents (fun s => (s.length : Int)) 0
        [[{ title := "a", link := "", pubDate := "aa", source := "A", description := "", isEvent := false }],
         [{ title := "b", link := "", pubDate := "bbbb", source := "B", description := "", isEvent := true }]]
        none).1.filter (fun r => (fun s => (s.length : Int)) r.pubDate == k)
      = ([[{ title := "a", link := "", pubDate := "aa", source := "A", description := "", isEvent := false }],
          [{ title := "b", link := "", pubDate := "bbbb", source := "B", description := "", isEvent := true }]].foldr
            (fun a b => a ++ b) []).filter (fun r => (fun s => (s.length : Int)) r.pubDate == k)) :=
  ⟨rfl, C1_getAllEvents_sorted_stable (fun s => (s.length : Int)) 0
    [[{ title := "a", link := "", pubDate := "aa", source := "A", description := "", isEvent := false }],
     [{ title := "b", link := "", pubDate := "bbbb", source := "B", description := "", isEvent := true }]]
    none rfl⟩

/-- Concrete record used by several concrete instances below. -/
def rec0 : EventRecord :=
  { title := "t", link := "l", pubDate := "2025-01-01T00:00:00.000Z",
    source := "S", description := "", isEvent := false }

/-- C2 counterexample: in src/server.js, getAllEvents applies no truncation
to the merged result: a cycle whose adapters contribute 101 records returns
all 101 of them, exceeding the stated maximum of 100. -/
theorem C2_counterexample :
    (getAllEvents (fun _ => 0) 0 [List.replicate 101 rec0] none).1.length = 101 ∧
    ¬ (101 ≤ 100) := by
  constructor
  · simp [getAllEvents, cacheGet]
  · decide

/-- C2 amended: the server.js getAllEvents returns the merged sorted list
without any truncation, so its length is only bounded by the adapters; the
part_000 snapshot is the one that truncates: its all-events handler caps the
merged sorted concatenation at 100 before caching and returning it. -/
theorem C2_amended_part000_truncates (dv : Option String → Int) (now : Int)
    (gizmodoEvents prtimesEvents : List P000.EventRecord) :
    (P000.allEventsHandler dv now gizmodoEvents prtimesEvents none).1.length ≤ 100 ∧
    (P000.allEventsHandler dv now gizmodoEvents prtimesEvents none).2
      = some ((P000.allEventsHandler dv now gizmodoEvents prtimesEvents none).1,
          now + 3600 * 1000) := by
  constructor
  · simp only [P000.allEventsHandler, cacheGet]
    exact List.length_take_le _ _
  · simp [P000.allEventsHandler, cacheGet, cacheSet, P000.cacheTTLms]

/-- C3: a failing adapter degrades to the empty sequence and never aborts
the batch: merging one always-failing adapter with one that returns the
records of a feed yields exactly those records (as a permutation, since the
orchestrator re-sorts), with the same length. -/
theorem C3_failing_adapter_isolated (dv : String → Int) (now : Int) (e : String)
    (feed : Feed) (src1 src2 nowISO : String) :
    fetchRSSFeed (Except.error e) src1 nowISO = [] ∧
    List.Perm
      (getAllEvents dv now
        [fetchRSSFeed (Except.error e) src1 nowISO,
         fetchRSSFeed (Except.ok feed) src2 nowISO] none).1
      (fetchRSSFeed (Except.ok feed) src2 nowISO) ∧
    (getAllEvents dv now
        [fetchRSSFeed (Except.error e) src1 nowISO,
         fetchRSSFeed (Except.ok feed) src2 nowISO] none).1.length
      = (fetchRSSFeed (Except.ok feed) src2 nowISO).length := by
  have hout : (getAllEvents dv now
      [fetchRSSFeed (Except.error e) src1 nowISO,
       fetchRSSFeed (Except.ok feed) src2 nowISO] none).1
      = ((fetchRSSFeed (Except.ok feed) src2 nowISO) ++ []).mergeSort (byDateDesc dv) := rfl
  rw [List.append_nil] at hout
  refine ⟨rfl, ?_, ?_⟩
  · rw [hout]
    exact List.mergeSort_perm _ _
  · rw [hout]
    exact List.length_mergeSort _

/-- C4: whenever the cache holds an unexpired entry, getAllEvents returns
that cached sequence, performs zero adapter invocations, and leaves the
cache state unchanged. -/
theorem C4_cache_hit_no_fetch (dv : String → Int) (now : Int)
    (fetches : List (List EventRecord)) (st : CacheState (List EventRecord))
    (data : List EventRecord) (hhit : cacheGet now st = some data) :
    getAllEvents dv now fetches st = (data, st, 0) := by
  simp only [getAllEvents, hhit]

/-- C4 witness: a concrete unexpired entry is served unchanged with zero
adapter invocations. -/
theorem C4_witness :
    cacheGet 5 (some ([rec0], 10) : CacheState (List EventRecord)) = some [rec0] ∧
    getAllEvents (fun _ => 0) 5 [[rec0]] (some ([rec0], 10)) = ([rec0], some ([rec0], 10), 0) :=
  ⟨by decide, C4_cache_hit_no_fetch (fun _ => 0) 5 [[rec0]] (some ([rec0], 10)) [rec0] (by decide)⟩

/-- Fixture page for the link-pattern strategy: one hyperlink to a numeric
news detail page whose surrounding text carries a date token and a bracketed
category tag. -/
def fcAnchor : Anchor :=
  { href := some "/news/123"
    text := "Opening of the new wing"
    parentText := "2025.10.1 [イベント] Opening of the new wing" }

/-- Evaluation of the direct link extraction on the fixture page: the
conversion pipeline is evaluated definitionally and the final sort is the
sort of a singleton list. -/
theorem fcTokyoDirectItems_fixture :
    fcTokyoDirectItems (fun _ => 0) "2025-10-20T12:00:00.000Z" [fcAnchor]
      = [{ title := "[イベント] Opening of the new wing"
           link := "https://www.fctokyo.co.jp/news/123"
           pubDate := "2025-10-01T00:00:00.000Z"
           source := "FC東京"
           description := "[イベント] Opening of the new wing"
           isEvent := true }] := by
  simp only [fcTokyoDirectItems]
  rw [show (([fcAnchor].filterMap extractNewsLink).take 30).map
      (newsLinkToItem "2025-10-20T12:00:00.000Z")
      = [{ title := "[イベント] Opening of the new wing"
           link := "https://www.fctokyo.co.jp/news/123"
           pubDate := "2025-10-01T00:00:00.000Z"
           source := "FC東京"
           description := "[イベント] Opening of the new wing"
           isEvent := true }] from rfl]
  rw [List.mergeSort_singleton]
  rfl

/-- C5 counterexample: on the fixture page the direct link extraction of
src/server.js produces exactly one record, but its title is the link text
prefixed with the bracketed category, not the bare link text the claim
states. -/
theorem C5_counterexample :
    (fcTokyoDirectItems (fun _ => 0) "2025-10-20T12:00:00.000Z" [fcAnchor]).map
        EventRecord.title
      = ["[イベント] Opening of the new wing"] ∧
    ("[イベント] Opening of the new wing" : String) ≠ "Opening of the new wing" := by
  rw [fcTokyoDirectItems_fixture]
  exact ⟨rfl, by decide⟩

/-- C5 amended: on the fixture page the link-pattern strategy extracts
exactly one record whose title is the link text prefixed with the recovered
bracketed category, whose url is the absolute resolution of the relative
href, whose publish date is the UTC instant of 2025-10-01, and whose
event-related flag is true. -/
theorem C5_amended_link_extraction :
    fcTokyoDirectItems (fun _ => 0) "2025-10-20T12:00:00.000Z" [fcAnchor]
      = [{ title := "[イベント] Opening of the new wing"
           link := "https://www.fctokyo.co.jp/news/123"
           pubDate := "2025-10-01T00:00:00.000Z"
           source := "FC東京"
           description := "[イベント] Opening of the new wing"
           isEvent := true }] :=
  fcTokyoDirectItems_fixture

/-- Fixture feed of three valid records for the indexed adapter scenario. -/
def prFeed3 : Feed :=
  { items :=
      [{ title := some "first item of the feed", link := some "https://example.com/1",
         pubDate := some "Mon, 01 Sep 2025 00:00:00 GMT", isoDate := none,
         contentSnippet := none, description := none },
       { title := some "second item of the feed", link := some "https://example.com/2",
         pubDate := some "Tue, 02 Sep 2025 00:00:00 GMT", isoDate := none,
         contentSnippet := none, description := none },
       { title := some "third item of the feed", link := some "https://example.com/3",
         pubDate := some "Wed, 03 Sep 2025 00:00:00 GMT", isoDate := none,
         contentSnippet := none, description := none }] }

/-- C6 counterexample: in src/server.js the per-id loop does isolate the
failure of id 1 and yields the 3 records of id 2, but every record is
tagged with the fixed source label PRTIMES, which does not contain the id. -/
theorem C6_counterexample :
    (fetchPRTimesCompanies
        (fun id => if id == 1 then Except.error "econnrefused" else Except.ok prFeed3)
        "NOW" [1, 2]).length = 3 ∧
    (fetchPRTimesCompanies
        (fun id => if id == 1 then Except.error "econnrefused" else Except.ok prFeed3)
        "NOW" [1, 2]).all (fun r => r.source == "PRTIMES") = true ∧
    strIncludes "PRTIMES" "2" = false := by
  refine ⟨rfl, rfl, rfl⟩

/-- C6 amended: per-id failures are isolated and results concatenated in
both snapshots; the id-bearing source label holds in the part_001 variant,
where ids 1 and 2 with id 1 failing yield exactly the records of id 2, in
number the number of items of its feed, each tagged with a source label
containing the id 2. In src/server.js the label is the fixed string PRTIMES. -/
theorem C6_amended_indexed_adapter (feed : Feed) (nowISO e : String) :
    P001.fetchPRTimesCompanies
        (fun id => if id == 1 then Except.error e else Except.ok feed) nowISO [1, 2]
      = feed.items.map (mapRSSItem (P001.sourceLabel 2) nowISO) ∧
    (P001.fetchPRTimesCompanies
        (fun id => if id == 1 then Except.error e else Except.ok feed) nowISO [1, 2]).length
      = feed.items.length ∧
    (P001.fetchPRTimesCompanies
        (fun id => if id == 1 then Except.error e else Except.ok feed) nowISO [1, 2]).all
        (fun r => strIncludes r.source "2") = true := by
  have hres : P001.fetchPRTimesCompanies
      (fun id => if id == 1 then Except.error e else Except.ok feed) nowISO [1, 2]
      = feed.items.map (mapRSSItem (P001.sourceLabel 2) nowISO) := by
    simp [P001.fetchPRTimesCompanies]
  refine ⟨hres, ?_, ?_⟩
  · rw [hres]
    simp
  · rw [hres]
    rw [List.all_eq_true]
    intro r hr
    obtain ⟨item, -, rfl⟩ := List.mem_map.mp hr
    show strIncludes (P001.sourceLabel 2) "2" = true
    rfl

/-- Fixture item that passes the part_000 classifier but carries no date in
any field. -/
def gzItemNoDate : P000.Item :=
  { title := some "限定イベント開催のお知らせです", link := some "https://example.com/x",
    guid := none, pubDate := none, isoDate := none, contentSnippet := none,
    content := none, contentEncoded := none, enclosureUrl := none, thumbnailUrl := none }

/-- C7 counterexample: in src/unnamed/part_000, fetchGizmodoEvents has no
fetch-time default for the publish date: an item that passes the classifier
but supplies neither pubDate nor isoDate leaves the adapter as one emitted
record whose publishDate is absent rather than the time of fetch. -/
theorem C7_counterexample :
    (P000.fetchGizmodoEvents (Except.ok { items := [gzItemNoDate] })).map
        P000.EventRecord.publishDate = [none] ∧
    (P000.fetchGizmodoEvents (Except.ok { items := [gzItemNoDate] })).length = 1 := by
  refine ⟨rfl, rfl⟩

/-- C7 amended: in src/server.js, a record whose source supplies an absent
or empty date in both the pubDate and the isoDate field gets the fetch-time
instant instead; a non-empty but unparsable supplied date string is passed
through unchanged, and the part_000 adapters omit the default entirely. -/
theorem C7_amended_missing_date_defaults (src nowISO : String) (item : RSSItem)
    (hmissing : jsFalsyO (jsOrO item.pubDate item.isoDate) = true) :
    (mapRSSItem src nowISO item).pubDate = nowISO := by
  show jsOrD (jsOrO item.pubDate item.isoDate) nowISO = nowISO
  cases h : jsOrO item.pubDate item.isoDate with
  | none => simp [jsOrD]
  | some s =>
    rw [h] at hmissing
    simp only [jsFalsyO] at hmissing
    simp [jsOrD, hmissing]

/-- Fixture feed item with every field absent. -/
def itemNone : RSSItem :=
  { title := none, link := none, pubDate := none, isoDate := none,
    contentSnippet := none, description := none }

/-- C7 witness: a concrete item with both date fields absent is normalized
to the fetch-time instant. -/
theorem C7_witness :
    jsFalsyO (jsOrO itemNone.pubDate itemNone.isoDate) = true ∧
    (mapRSSItem "SRC" "2025-10-11T00:00:00.000Z" itemNone).pubDate
      = "2025-10-11T00:00:00.000Z" :=
  ⟨rfl, C7_amended_missing_date_defaults "SRC" "2025-10-11T00:00:00.000Z" itemNone rfl⟩

/-- C8 counterexample: fetchRSSFeed of src/server.js drops nothing: a feed
item with every field absent still yields one record, whose title and link
are both the empty string, so a record with neither title nor url does leave
the adapter. -/
theorem C8_counterexample :
    fetchRSSFeed (Except.ok { items := [itemNone] }) "SRC" "NOW"
      = [{ title := "", link := "", pubDate := "NOW", source := "SRC",
           description := "", isEvent := false }] ∧
    (fetchRSSFeed (Except.ok { items := [itemNone] }) "SRC" "NOW").length ≠ 0 := by
  refine ⟨rfl, by decide⟩

/-- C8 amended: the adapter drops no fetched item: fetchRSSFeed returns one
record per feed item, with an absent title and an absent link each coalesced
to the empty string, so title and url may both end up empty. -/
theorem C8_amended_no_drop (feed : Feed) (src nowISO : String) :
    (fetchRSSFeed (Except.ok feed) src nowISO).length = feed.items.length ∧
    (mapRSSItem src nowISO itemNone).title = "" ∧
    (mapRSSItem src nowISO itemNone).link = "" := by
  refine ⟨?_, rfl, rfl⟩
  simp [fetchRSSFeed]

/-- C9: the classifier is a total boolean function of an optional string,
deciding case-insensitive substring membership against the fixed keyword
list: the festival example is accepted, the financial-report example is
rejected, and the empty and the undefined input both yield false. -/
theorem C9_classifier_total_examples :
    isEventRelated (some "Summer Festival campaign") = true ∧
    isEventRelated (some "Quarterly financial report") = false ∧
    isEventRelated (some "") = false ∧
    isEventRelated none = false := by
  refine ⟨rfl, rfl, rfl, rfl⟩

/-- C10: a cycle in which every adapter contributes zero records stores the
empty sequence in the cache, and any later call up to the expiry instant of
that entry is a cache hit: it returns the empty sequence with zero adapter
invocations and leaves the cache unchanged, whatever its own adapters would
have returned. -/
theorem C10_empty_result_cached (dv dv2 : String → Int) (t0 t : Int)
    (fetches fetches2 : List (List EventRecord))
    (hempty : ∀ l ∈ fetches, l = []) (hwithin : t ≤ t0 + cacheTTLms) :
    (getAllEvents dv t0 fetches none).1 = [] ∧
    (getAllEvents dv t0 fetches none).2.1 = some ([], t0 + cacheTTLms) ∧
    getAllEvents dv2 t fetches2 (getAllEvents dv t0 fetches none).2.1
      = ([], (getAllEvents dv t0 fetches none).2.1, 0) := by
  have hmerged := foldr_append_eq_nil fetches hempty
  have h1 : (getAllEvents dv t0 fetches none).1 = [] := by
    simp [getAllEvents, cacheGet, hmerged]
  have h2 : (getAllEvents dv t0 fetches none).2.1 = some ([], t0 + cacheTTLms) := by
    simp [getAllEvents, cacheGet, cacheSet, hmerged]
  refine ⟨h1, h2, ?_⟩
  rw [h2]
  have hget : cacheGet t (some ([], t0 + cacheTTLms) : CacheState (List EventRecord))
      = some [] := by
    simp only [cacheGet, if_neg (not_lt.mpr hwithin)]
  simp only [getAllEvents, hget]

/-- C10 witness: two empty adapter contributions at instant 0 are cached and
served again at instant 1000 with zero adapter invocations. -/
theorem C10_witness :
    (∀ l ∈ ([[], []] : List (List EventRecord)), l = []) ∧
    (1000 : Int) ≤ 0 + cacheTTLms ∧
    ((getAllEvents (fun _ => 0) 0 [[], []] none).1 = [] ∧
     (getAllEvents (fun _ => 0) 0 [[], []] none).2.1 = some ([], 0 + cacheTTLms) ∧
     getAllEvents (fun _ => 1) 1000 [[rec0]] (getAllEvents (fun _ => 0) 0 [[], []] none).2.1
       = ([], (getAllEvents (fun _ => 0) 0 [[], []] none).2.1, 0)) :=
  ⟨by decide, by decide,
    C10_empty_result_cached (fun _ => 0) (fun _ => 1) 0 1000 [[], []] [[rec0]]
      (by decide) (by decide)⟩
